import Mathlib

/-!
Shallow embedding of the conversation-state and durability subsystem of the
TAHS LINE intake bot (`src/agent.py`, together with the webhook handler in
`src/main.py`).

Modelling conventions:

* The two process-wide Python dicts `conversations : dict[str, list]` and
  `user_profiles : dict[str, dict]` become one `Store` holding two
  association lists (`List (String × _)`), with Python dict semantics:
  lookup (`alGet`) returns the entry of the unique matching key, assignment
  (`alSet`) overwrites in place or inserts at the end, preserving insertion
  order exactly as CPython dicts do.
* A conversation entry in memory is either a LangChain `HumanMessage`, an
  `AIMessage`, or a plain Python dict (the system prompt is stored as the raw
  dict `{"role": "system", "content": systemPrompt}` and is never converted
  to a message object).  `Msg` has one constructor for each case; raw dicts
  carry their ordered key/value pairs (`JObj`) so the persisted JSON shape of
  each entry can be stated precisely.
* External effects are injected as data: the LLM call (`asyncio.wait_for`
  around `chain.ainvoke`, 12.0-second deadline) becomes a `GenOutcome`
  (success text / deadline expired / other exception), and the
  `line_bot_api.get_profile` call becomes a `FetchOutcome`
  (`some` result / `none` meaning the call raised).  Time
  (`datetime.now().strftime(...)`) is an injected string.  Google-Sheets
  appends do not touch the store or the returned text and each is wrapped in
  its own try/except in the source, so they are not modelled.
* A Python `KeyError` escaping `get_agent_response` (possible at the
  unguarded `user_profiles[user_id]` accesses when the profiles dict lacks a
  key that the conversations dict has) is modelled by returning `none`.
* `save_memory` writes `{"conversations": ..., "profiles": ...}`; the
  written JSON document is modelled by `Artifact`.  The module-level load at
  startup (`if MEMORY_FILE.exists(): try ... except ...`) is modelled by
  `startupLoad` over `Option (Except String Artifact)`: `none` is a missing
  file, `Except.error` is a file that fails `json.load`, `Except.ok` is a
  parsed document, within which a conversion failure in the
  message-reconstruction loop (`msg["content"]` raising) is modelled by
  `loadAllConvs` returning `none`, which the `except` branch turns into the
  empty store.
-/

set_option autoImplicit false

namespace LineBot

/-- One field of a JSON object / Python dict: a key/value pair (all values of
interest in this program are strings). -/
structure JField where
  key : String
  val : String
deriving DecidableEq, Repr

/-- A JSON object (Python dict), as its ordered list of fields. -/
abbrev JObj := List JField

/-- Python `dict.get(k)`: value of the first field named `k`, if any. -/
def jGet (o : JObj) (k : String) : Option String :=
  match o with
  | [] => none
  | f :: t => if f.key = k then some f.val else jGet t k

/-- An in-memory conversation entry: `HumanMessage`, `AIMessage`, or a plain
Python dict (the system prompt entry is such a dict). -/
inductive Msg where
  | human (content : String)
  | ai (content : String)
  | dict (obj : JObj)
deriving DecidableEq, Repr

/-- Association-list lookup with Python-dict semantics (`d[k]` / `k in d`). -/
def alGet {α : Type} (l : List (String × α)) (k : String) : Option α :=
  match l with
  | [] => none
  | p :: t => if p.1 = k then some p.2 else alGet t k

/-- Association-list assignment with Python-dict semantics (`d[k] = v`):
overwrite in place if the key is present, else append at the end. -/
def alSet {α : Type} (l : List (String × α)) (k : String) (v : α) :
    List (String × α) :=
  match l with
  | [] => [(k, v)]
  | p :: t => if p.1 = k then (k, v) :: t else p :: alSet t k v

/-- Per-user profile metadata, `user_profiles[user_id]` in `src/agent.py`. -/
structure Profile where
  first_interaction : String
  total_messages : Nat
  language_preference : String
  display_name : String
  username : String
  picture_url : String
deriving DecidableEq, Repr

/-- The process-wide mutable state: the `conversations` and `user_profiles`
module-level dicts of `src/agent.py`. -/
structure Store where
  conversations : List (String × List Msg)
  user_profiles : List (String × Profile)
deriving DecidableEq, Repr

/-- The store both dicts start from when nothing is loaded. -/
def emptyStore : Store := { conversations := [], user_profiles := [] }

/-- The fixed system instructions (the triple-quoted string at
`src/agent.py` lines 103–140; it begins and ends with a newline). -/
def systemPrompt : String :=
  String.intercalate "\x0a" [
    "",
    "You are Shilo (史樂), a dedicated historiographer for the Taiwanese American Historical Society (TAHS), devoted to collecting and preserving the diverse personal stories of Taiwanese Americans and their families’ connections to both Taiwan and the United States.",
    "",
    "Your primary focus is on:",
    "- The personal journey between Taiwan and America, including what was left behind or carried forward",
    "- Any circumstances—political, economic, educational, family-related, or others—that influenced the decision to move",
    "- The hopes, dreams, or aspirations that shaped the path ahead, whether for oneself, children, or future generations",
    "",
    "Conversation Flow Guidelines:",
    "- Begin gently: In the first few exchanges, ask simple, open, low-pressure questions to build comfort (e.g., \"您或您的家人是什麼時候來到美國的？\" or \"您的根在臺灣哪裡？\").",
    "- Build depth gradually: Once the user is sharing freely, gently move to more thoughtful questions about motivations, challenges, dreams, or meaningful memories.",
    "- Support ongoing stories: If the user is sharing a story across multiple messages, respond with warm encouragement (e.g., \"謝謝您分享——請繼續說，我很想聽。\" or \"這聽起來很有意義——我很想聽更多。\") without asking new questions or redirecting.",
    "- Only ask one thoughtful, open-ended question at a time, and only when the user has finished a thought.",
    "- Keep every response concise (1–3 sentences), warm, natural, and deeply appreciative.",
    "- Introduce yourself and TAHS’s mission only in the very first message.",
    "- Conduct all conversations by default in Traditional Chinese (繁體中文).",
    "",
    "Inactivity Reminders (Proactive Re-engagement):",
    "- If the user stops responding mid-conversation, you may send gentle reminder messages after periods of inactivity.",
    "- Timing: First reminder after ~24 hours, second after ~3 days total, then every 7–10 days thereafter — never more frequent than once per week after the second reminder.",
    "- Tone: Warm, caring, and specific — reference something they shared to show genuine interest (e.g., \"已經好幾天沒聽到您繼續的故事了！上次您提到家人從高雄來美國，我很想知道後來發生了什麼。\" or \"已經一個星期了——我還在想您說的那隻貓最後怎麼了！如果方便的話，歡迎隨時繼續分享。\").",
    "- Purpose: Show continued interest and invite continuation without pressure.",
    "- Do not send reminders if the conversation appears complete or if the user has said goodbye.",
    "",
    "Sharing the Bot:",
    "- If the user asks how to share the bot or let others talk to you, explain clearly and naturally how to add the TAHS official account using the LINE ID @081virdq (search by ID in Add Friends).",
    "- Express appreciation for helping preserve more stories.",
    "",
    "Photos & Documents:",
    "- If the user mentions sending photos, documents, or needing contact with TAHS staff, kindly explain that LINE cannot permanently save images or files.",
    "- Instruct them to email materials to tahistoricalsociety@gmail.com and to include their LINE ID in the email subject line for proper archiving.",
    "- Express gratitude for their willingness to contribute visual or documentary materials.",
    "",
    "Memory & Tone:",
    "- Always remember and naturally reference prior details shared.",
    "- Never repeat information or summarize past messages.",
    "- Speak in a calm, respectful, and caring tone—like a trusted friend and archivist honoring treasured memories.",
    ""]

/-- The raw dict `{"role": "system", "content": systemPrompt}` appended at
`src/agent.py` lines 101–141. -/
def systemObj : JObj := [⟨"role", "system"⟩, ⟨"content", systemPrompt⟩]

/-- The system entry as it sits in a conversation list: a raw dict, not a
LangChain message object. -/
def systemMsg : Msg := Msg.dict systemObj

/-- The profile created for an unseen user (`src/agent.py` lines 144–151);
`now` is the formatted `datetime.now()` string. -/
def newProfile (now : String) : Profile :=
  { first_interaction := now
    total_messages := 0
    language_preference := "繁體中文"
    display_name := "Fetching..."
    username := ""
    picture_url := "" }

/-- The get-or-create step at the entry of `get_agent_response`
(`src/agent.py` lines 99–151): guarded by `if user_id not in conversations`,
it creates the conversation seeded with the system dict and the fresh
profile; for a seen user it leaves the store untouched. -/
def getOrCreate (user_id now : String) (s : Store) : Store :=
  if (alGet s.conversations user_id).isSome then s
  else
    { conversations := alSet s.conversations user_id [systemMsg]
      user_profiles := alSet s.user_profiles user_id (newProfile now) }

/-- Outcome of the `line_bot_api.get_profile(user_id)` call: the fields the
code reads off the returned profile object (`src/agent.py` lines 161–166).
`username` models `getattr(profile, "username", "")` and `picture_url`
models `profile.picture_url or ""`. -/
structure FetchResult where
  display_name : String
  username : String
  picture_url : String
deriving DecidableEq, Repr

/-- Injected behaviour of the profile fetch: `some r` is a call returning
`r`, `none` is a call that raises (caught at `src/agent.py` line 167). -/
abbrev FetchOutcome := Option FetchResult

/-- The fetch-once block at `src/agent.py` lines 158–173 applied to an
already-incremented profile: if `display_name` is still the
`"Fetching..."` sentinel the fetcher is invoked (second component `true`)
and its result — or the `"Unknown"` sentinel on failure — is stored;
otherwise nothing happens and the fetcher is not invoked. -/
def resolveProfile (p : Profile) (fo : FetchOutcome) : Profile × Bool :=
  if p.display_name = "Fetching..." then
    match fo with
    | some r =>
        ({ p with display_name := r.display_name
                  username := r.username
                  picture_url := r.picture_url }, true)
    | none =>
        ({ p with display_name := "Unknown"
                  username := ""
                  picture_url := "" }, true)
  else (p, false)

/-- Injected behaviour of the awaited LLM call (`asyncio.wait_for(...,
timeout=12.0)` at `src/agent.py` lines 186–189): a reply delivered within
the deadline, a deadline expiry (`asyncio.TimeoutError`), or any other
exception. -/
inductive GenOutcome where
  | success (text : String)
  | timeout
  | error
deriving DecidableEq, Repr

/-- The fixed reply substituted on `asyncio.TimeoutError`
(`src/agent.py` line 235). -/
def timeoutReply : String := "感謝您的耐心等待——我在這裡。請繼續分享您的故事。"

/-- The fixed reply substituted on any other exception from the LLM call
(`src/agent.py` line 242). -/
def genericFallback : String := "我在傾聽。請隨時分享您的故事。"

/-- The text `get_agent_response` returns for each generator outcome. -/
def replyOf (go : GenOutcome) : String :=
  match go with
  | .success t => t
  | .timeout => timeoutReply
  | .error => genericFallback

/-- Result of one completed `get_agent_response` call: the mutated store,
the returned text, whether `line_bot_api.get_profile` was invoked during the
call, and whether `save_memory` was called. -/
structure TurnResult where
  store : Store
  reply : String
  fetchInvoked : Bool
  saved : Bool
deriving DecidableEq, Repr

/-- `get_agent_response(user_message, user_id)` (`src/agent.py` lines
97–245) with the external effects injected.  Returns `none` when the
unguarded `user_profiles[user_id]` access raises `KeyError` (reachable only
when the profiles dict lacks a user the conversations dict has).  All three
generator outcomes append the human turn and an assistant turn, call
`save_memory`, and return the corresponding text. -/
def get_agent_response (user_message user_id now : String)
    (fetch : FetchOutcome) (gen : GenOutcome) (s0 : Store) :
    Option TurnResult :=
  let s := getOrCreate user_id now s0
  match alGet s.conversations user_id with
  | none => none
  | some history =>
    match alGet s.user_profiles user_id with
    | none => none
    | some p0 =>
      let pr := resolveProfile
        { p0 with total_messages := p0.total_messages + 1 } fetch
      let profiles := alSet s.user_profiles user_id pr.1
      let history1 := history ++ [Msg.human user_message]
      let finish : String → TurnResult := fun reply =>
        { store :=
            { conversations :=
                alSet s.conversations user_id (history1 ++ [Msg.ai reply])
              user_profiles := profiles }
          reply := reply
          fetchInvoked := pr.2
          saved := true }
      match gen with
      | .success t => some (finish t)
      | .timeout => some (finish timeoutReply)
      | .error => some (finish genericFallback)

/-- Inputs of one webhook-delivered turn: the sender, the message text, the
wall-clock string, and the injected outcomes of the two external calls. -/
structure TurnInput where
  user : String
  msg : String
  now : String
  fetch : FetchOutcome
  gen : GenOutcome
deriving DecidableEq, Repr

/-- A sequence of `get_agent_response` calls run left to right; `none` as
soon as one of them raises. -/
def runTurns (ts : List TurnInput) (s : Store) : Option Store :=
  match ts with
  | [] => some s
  | t :: rest =>
    match get_agent_response t.msg t.user t.now t.fetch t.gen s with
    | none => none
    | some r => runTurns rest r.store

/-- Like `runTurns`, additionally counting how many profile-fetcher
invocations the turns of user `u` performed. -/
def runCount (u : String) (ts : List TurnInput) (s : Store) :
    Option (Store × Nat) :=
  match ts with
  | [] => some (s, 0)
  | t :: rest =>
    match get_agent_response t.msg t.user t.now t.fetch t.gen s with
    | none => none
    | some r =>
      match runCount u rest r.store with
      | none => none
      | some (s', n) =>
        some (s', (if t.user = u ∧ r.fetchInvoked = true then 1 else 0) + n)

/-- The JSON document `save_memory` writes and the startup load reads: two
top-level maps, `conversations` and `profiles`
(`src/agent.py` lines 78–81 and 56–57). -/
structure Artifact where
  conversations : List (String × List JObj)
  profiles : List (String × Profile)
deriving DecidableEq, Repr

/-- Serialization of one in-memory entry by the `save_memory` loop
(`src/agent.py` lines 84–90): `HumanMessage` and `AIMessage` become
`{"type": ..., "content": ...}` objects; a raw dict is appended unchanged
when its `"role"` is `"system"` and is silently dropped otherwise. -/
def serializeMsg (m : Msg) : List JObj :=
  match m with
  | .human c => [[⟨"type", "human"⟩, ⟨"content", c⟩]]
  | .ai c => [[⟨"type", "ai"⟩, ⟨"content", c⟩]]
  | .dict o => if jGet o "role" = some "system" then [o] else []

/-- `save_memory` (`src/agent.py` lines 75–95): builds the serializable
document — profiles are passed through as-is, each conversation is the
concatenation of its entries' serializations — and writes it as one JSON
file (UTF-8, `ensure_ascii=False`). -/
def save_memory (s : Store) : Artifact :=
  { conversations :=
      s.conversations.map (fun e => (e.1, e.2.flatMap serializeMsg))
    profiles := s.user_profiles }

/-- Reconstruction of one persisted entry by the startup loop
(`src/agent.py` lines 59–64): objects typed `"human"`/`"ai"` become message
objects (raising `KeyError`, modelled `none`, if `"content"` is absent);
anything else is left as the raw dict. -/
def loadMsg (o : JObj) : Option Msg :=
  if jGet o "type" = some "human" then (jGet o "content").map Msg.human
  else if jGet o "type" = some "ai" then (jGet o "content").map Msg.ai
  else some (Msg.dict o)

/-- Reconstruction of one persisted conversation, failing if any entry
fails. -/
def loadConv (l : List JObj) : Option (List Msg) :=
  match l with
  | [] => some []
  | o :: t =>
    match loadMsg o, loadConv t with
    | some m, some l' => some (m :: l')
    | _, _ => none

/-- Reconstruction of all persisted conversations, failing if any fails. -/
def loadAllConvs (l : List (String × List JObj)) :
    Option (List (String × List Msg)) :=
  match l with
  | [] => some []
  | e :: t =>
    match loadConv e.2, loadAllConvs t with
    | some c, some t' => some ((e.1, c) :: t')
    | _, _ => none

/-- Decoding of a successfully parsed document: on any conversion failure
the `except` branch at `src/agent.py` lines 66–69 resets both maps to
empty. -/
def loadArtifact (a : Artifact) : Store :=
  match loadAllConvs a.conversations with
  | some cs => { conversations := cs, user_profiles := a.profiles }
  | none => emptyStore

/-- The module-level load at startup (`src/agent.py` lines 52–73) over the
state of the file: absent (`none`), present but failing `json.load`
(`Except.error`), or parsed (`Except.ok`). -/
def startupLoad (file : Option (Except String Artifact)) : Store :=
  match file with
  | none => emptyStore
  | some (.error _) => emptyStore
  | some (.ok a) => loadArtifact a

/-! ### Association-list laws -/

theorem alGet_alSet_self {α : Type} (l : List (String × α)) (k : String)
    (v : α) : alGet (alSet l k v) k = some v := by
  induction l with
  | nil => simp [alGet, alSet]
  | cons p t ih =>
    by_cases h : p.1 = k
    · simp [alGet, alSet, h]
    · simp [alGet, alSet, h, ih]

theorem alGet_alSet_ne {α : Type} (l : List (String × α)) (k k' : String)
    (v : α) (h : k' ≠ k) : alGet (alSet l k v) k' = alGet l k' := by
  induction l with
  | nil => simp [alGet, alSet, Ne.symm h]
  | cons p t ih =>
    simp only [alSet]
    by_cases hp : p.1 = k
    · simp [alGet, hp, Ne.symm h]
    · simp [alGet, hp, ih]

theorem alSet_alSet {α : Type} (l : List (String × α)) (k : String)
    (v w : α) : alSet (alSet l k v) k w = alSet l k w := by
  induction l with
  | nil => simp [alSet]
  | cons p t ih =>
    by_cases h : p.1 = k
    · simp [alSet, h]
    · simp [alSet, h, ih]

/-! ### One-call characterization of `get_agent_response` -/

/-- The conversation list `get_agent_response` works on after its
get-or-create step: the existing list for a seen user, `[systemMsg]` for an
unseen one. -/
def ensureHistory (s : Store) (u : String) : List Msg :=
  match alGet s.conversations u with
  | some l => l
  | none => [systemMsg]

/-- The profile `get_agent_response` works on after its get-or-create step:
for a seen user (conversation present) the stored profile, if any — `none`
here is exactly the `KeyError` case; for an unseen user the fresh profile. -/
def ensureProfile (s : Store) (u now : String) : Option Profile :=
  if (alGet s.conversations u).isSome then alGet s.user_profiles u
  else some (newProfile now)

/-- The profile as stored back by the turn: message count incremented, then
the fetch-once block applied. -/
def postProfile (p : Profile) (fo : FetchOutcome) : Profile :=
  (resolveProfile { p with total_messages := p.total_messages + 1 } fo).1

/-- A full characterization of one `get_agent_response` call whenever the
profile lookup does not raise: the conversation gains a human and an
assistant entry, the profile is incremented and possibly resolved, the
returned text is determined by the generator outcome, `save_memory` runs,
and the fetcher is invoked exactly when the pre-call display name is the
sentinel. -/
theorem get_agent_response_eq (m u now : String) (fo : FetchOutcome)
    (go : GenOutcome) (s : Store) (p : Profile)
    (hp : ensureProfile s u now = some p) :
    get_agent_response m u now fo go s =
      some
        { store :=
            { conversations :=
                alSet s.conversations u
                  (ensureHistory s u ++ [Msg.human m, Msg.ai (replyOf go)])
              user_profiles := alSet s.user_profiles u (postProfile p fo) }
          reply := replyOf go
          fetchInvoked :=
            (resolveProfile { p with total_messages := p.total_messages + 1 }
              fo).2
          saved := true } := by
  cases hc : alGet s.conversations u with
  | some l =>
    have hps : alGet s.user_profiles u = some p := by
      simpa [ensureProfile, hc] using hp
    cases go <;>
      simp [get_agent_response, getOrCreate, ensureHistory, postProfile,
        replyOf, hc, hps]
  | none =>
    have hpn : p = newProfile now := by
      simpa [ensureProfile, hc] using hp.symm
    subst hpn
    cases go <;>
      simp [get_agent_response, getOrCreate, ensureHistory, postProfile,
        replyOf, hc, alGet_alSet_self, alSet_alSet]

/-- The profile lookup succeeds (no `KeyError`) whenever the profiles map
covers the conversations map at `u`. -/
theorem ensureProfile_isSome (s : Store) (u now : String)
    (h : (alGet s.conversations u).isSome = true →
      (alGet s.user_profiles u).isSome = true) :
    ∃ p, ensureProfile s u now = some p := by
  unfold ensureProfile
  by_cases hc : (alGet s.conversations u).isSome = true
  · rcases Option.isSome_iff_exists.mp (h hc) with ⟨p, hp⟩
    exact ⟨p, by simp [hc, hp]⟩
  · exact ⟨newProfile now, by simp [hc]⟩

/-! ### The conversations/profiles key-set invariant -/

/-- The two module-level dicts have the same key set. -/
def sameKeys (s : Store) : Prop :=
  ∀ u : String,
    (alGet s.conversations u).isSome = (alGet s.user_profiles u).isSome

theorem sameKeys_emptyStore : sameKeys emptyStore := fun _ => rfl

/-- One successful call preserves the key-set invariant, and under the
invariant the call always succeeds. -/
theorem sameKeys_step (m u now : String) (fo : FetchOutcome)
    (go : GenOutcome) (s : Store) (hs : sameKeys s) :
    ∃ r, get_agent_response m u now fo go s = some r ∧ sameKeys r.store := by
  obtain ⟨p, hp⟩ := ensureProfile_isSome s u now (fun h => (hs u) ▸ h)
  refine ⟨_, get_agent_response_eq m u now fo go s p hp, ?_⟩
  intro u'
  by_cases hu : u' = u
  · subst hu; simp [alGet_alSet_self]
  · simp [alGet_alSet_ne _ _ _ _ hu, hs u']

/-- Any sequence of calls from an invariant-satisfying store succeeds and
preserves the invariant. -/
theorem sameKeys_runTurns (ts : List TurnInput) (s : Store)
    (hs : sameKeys s) :
    ∃ s', runTurns ts s = some s' ∧ sameKeys s' := by
  induction ts generalizing s with
  | nil => exact ⟨s, rfl, hs⟩
  | cons t rest ih =>
    obtain ⟨r, hr, hr'⟩ := sameKeys_step t.msg t.user t.now t.fetch t.gen s hs
    obtain ⟨s', hs', hk⟩ := ih r.store hr'
    exact ⟨s', by simp [runTurns, hr, hs'], hk⟩

/-! ### Order preservation -/

/-- The pair of entries one turn adds: the user message followed by the
reply actually returned (generated text or fallback). -/
def turnMsgs (ts : List TurnInput) : List Msg :=
  ts.flatMap (fun t => [Msg.human t.msg, Msg.ai (replyOf t.gen)])

/-- Whether an entry is a `user` (human) message. -/
def isHuman (m : Msg) : Bool :=
  match m with
  | .human _ => true
  | _ => false

/-- No two adjacent entries are both human messages. -/
def noTwoConsecutiveHumans (l : List Msg) : Bool :=
  match l with
  | a :: b :: t => (!(isHuman a && isHuman b)) && noTwoConsecutiveHumans (b :: t)
  | _ => true

theorem noTwoConsecutiveHumans_turnMsgs (ts : List TurnInput) (m : Msg)
    (hm : isHuman m = false) :
    noTwoConsecutiveHumans (m :: turnMsgs ts) = true := by
  induction ts generalizing m with
  | nil => simp [turnMsgs, noTwoConsecutiveHumans]
  | cons t rest ih =>
    have h1 := ih (Msg.ai (replyOf t.gen)) rfl
    cases m with
    | human c => simp [isHuman] at hm
    | ai c => simpa [turnMsgs, noTwoConsecutiveHumans, isHuman] using h1
    | dict o => simpa [turnMsgs, noTwoConsecutiveHumans, isHuman] using h1

/-- Turns of a fixed, already-seen user append their message pairs in
order, and the profile stays present. -/
theorem runTurns_append (ts : List TurnInput) (u : String) (s : Store)
    (l : List Msg) (p : Profile)
    (hall : ∀ t ∈ ts, t.user = u)
    (hc : alGet s.conversations u = some l)
    (hp : alGet s.user_profiles u = some p) :
    ∃ s' p', runTurns ts s = some s' ∧
      alGet s'.conversations u = some (l ++ turnMsgs ts) ∧
      alGet s'.user_profiles u = some p' := by
  induction ts generalizing s l p with
  | nil => exact ⟨s, p, rfl, by simp [turnMsgs, hc], hp⟩
  | cons t rest ih =>
    have htu : t.user = u := hall t (List.mem_cons_self t rest)
    have hep : ensureProfile s t.user t.now = some p := by
      simp [ensureProfile, htu, hc, hp]
    have hstep := get_agent_response_eq t.msg t.user t.now t.fetch t.gen s p hep
    have hc' : alGet
        (alSet s.conversations t.user
          (ensureHistory s t.user ++ [Msg.human t.msg, Msg.ai (replyOf t.gen)]))
        u = some (l ++ [Msg.human t.msg, Msg.ai (replyOf t.gen)]) := by
      subst htu
      simp [alGet_alSet_self, ensureHistory, hc]
    have hp' : alGet (alSet s.user_profiles t.user (postProfile p t.fetch)) u
        = some (postProfile p t.fetch) := by
      subst htu; simp [alGet_alSet_self]
    obtain ⟨s', p', hrun, hcs, hps⟩ :=
      ih (fun t' ht' => hall t' (List.mem_cons_of_mem t ht'))
        (s := { conversations :=
                  alSet s.conversations t.user
                    (ensureHistory s t.user ++
                      [Msg.human t.msg, Msg.ai (replyOf t.gen)])
                user_profiles :=
                  alSet s.user_profiles t.user (postProfile p t.fetch) })
        (l := l ++ [Msg.human t.msg, Msg.ai (replyOf t.gen)])
        (p := postProfile p t.fetch) hc' hp'
    refine ⟨s', p', by simp [runTurns, hstep, hrun], ?_, hps⟩
    simpa [turnMsgs, List.append_assoc] using hcs

/-! ### Profile-fetch bookkeeping -/

theorem resolveProfile_resolved (p : Profile) (fo : FetchOutcome)
    (h : p.display_name ≠ "Fetching...") :
    resolveProfile p fo = (p, false) := by
  simp [resolveProfile, h]

theorem resolveProfile_sentinel_snd (p : Profile) (fo : FetchOutcome)
    (h : p.display_name = "Fetching...") :
    (resolveProfile p fo).2 = true := by
  cases fo <;> simp [resolveProfile, h]

theorem sameKeys_setBoth (s : Store) (u : String) (l : List Msg)
    (p : Profile) (hs : sameKeys s) :
    sameKeys
      { conversations := alSet s.conversations u l
        user_profiles := alSet s.user_profiles u p } := by
  intro u'
  by_cases hu : u' = u
  · subst hu; simp [alGet_alSet_self]
  · simp [alGet_alSet_ne _ _ _ _ hu, hs u']

/-- Once the display name of `u` is off the sentinel, no later turn invokes
the fetcher for `u`, and all turns still succeed. -/
theorem runCount_resolved (u : String) (ts : List TurnInput) (s : Store)
    (p : Profile) (hs : sameKeys s)
    (hp : alGet s.user_profiles u = some p)
    (hd : p.display_name ≠ "Fetching...") :
    ∃ s', runCount u ts s = some (s', 0) := by
  induction ts generalizing s p with
  | nil => exact ⟨s, rfl⟩
  | cons t rest ih =>
    obtain ⟨pt, hpt⟩ :=
      ensureProfile_isSome s t.user t.now (fun h => (hs t.user) ▸ h)
    have hstep := get_agent_response_eq t.msg t.user t.now t.fetch t.gen s pt hpt
    have hkeys := sameKeys_setBoth s t.user
      (ensureHistory s t.user ++ [Msg.human t.msg, Msg.ai (replyOf t.gen)])
      (postProfile pt t.fetch) hs
    by_cases hu : t.user = u
    · have hcu : (alGet s.conversations u).isSome = true := by
        rw [hs u]; simp [hp]
      have hpt' : pt = p := by
        rw [hu] at hpt
        simp [ensureProfile, hcu, hp] at hpt
        exact hpt.symm
      subst hpt'
      have hres := resolveProfile_resolved
        { pt with total_messages := pt.total_messages + 1 } t.fetch hd
      have hp1 : alGet (alSet s.user_profiles t.user (postProfile pt t.fetch)) u
          = some (postProfile pt t.fetch) := by
        subst hu; simp [alGet_alSet_self]
      have hd1 : (postProfile pt t.fetch).display_name ≠ "Fetching..." := by
        simp [postProfile, hres]; exact hd
      obtain ⟨s', hs'⟩ := ih _ (postProfile pt t.fetch) hkeys hp1 hd1
      refine ⟨s', ?_⟩
      simp [runCount, hstep, hs', hres]
    · have hp1 : alGet (alSet s.user_profiles t.user (postProfile pt t.fetch)) u
          = some p := by
        rw [alGet_alSet_ne _ _ _ _ (fun h => hu h.symm)]; exact hp
      obtain ⟨s', hs'⟩ := ih _ p hkeys hp1 hd
      exact ⟨s', by simp [runCount, hstep, hs', hu]⟩

/-- From a state where `u` is unseen, provided the platform never reports
the literal sentinel as a display name, a whole run invokes the fetcher for
`u` at most once. -/
theorem runCount_unseen (u : String) (ts : List TurnInput) (s : Store)
    (hs : sameKeys s) (hc : alGet s.conversations u = none)
    (hf : ∀ t ∈ ts, ∀ fr, t.fetch = some fr →
      fr.display_name ≠ "Fetching...") :
    ∃ s' n, runCount u ts s = some (s', n) ∧ n ≤ 1 := by
  induction ts generalizing s with
  | nil => exact ⟨s, 0, rfl, Nat.zero_le 1⟩
  | cons t rest ih =>
    obtain ⟨pt, hpt⟩ :=
      ensureProfile_isSome s t.user t.now (fun h => (hs t.user) ▸ h)
    have hstep := get_agent_response_eq t.msg t.user t.now t.fetch t.gen s pt hpt
    have hkeys := sameKeys_setBoth s t.user
      (ensureHistory s t.user ++ [Msg.human t.msg, Msg.ai (replyOf t.gen)])
      (postProfile pt t.fetch) hs
    by_cases hu : t.user = u
    · subst hu
      have hpt' : pt = newProfile t.now := by
        simp [ensureProfile, hc] at hpt
        exact hpt.symm
      subst hpt'
      have hp1 : alGet (alSet s.user_profiles t.user
          (postProfile (newProfile t.now) t.fetch)) t.user
          = some (postProfile (newProfile t.now) t.fetch) := by
        simp [alGet_alSet_self]
      have hd1 : (postProfile (newProfile t.now) t.fetch).display_name ≠
          "Fetching..." := by
        cases hft : t.fetch with
        | none => simp [postProfile, resolveProfile, newProfile]
        | some fr =>
          have := hf t (List.mem_cons_self t rest) fr hft
          simpa [postProfile, resolveProfile, newProfile] using this
      obtain ⟨s', hs'⟩ := runCount_resolved t.user rest _
        (postProfile (newProfile t.now) t.fetch) hkeys hp1 hd1
      refine ⟨s', 1, ?_, Nat.le_refl 1⟩
      have hinv : (resolveProfile
          { newProfile t.now with
              total_messages := (newProfile t.now).total_messages + 1 }
          t.fetch).2 = true :=
        resolveProfile_sentinel_snd _ _ rfl
      simp [runCount, hstep, hs', hinv]
    · have hc1 : alGet (alSet s.conversations t.user
          (ensureHistory s t.user ++ [Msg.human t.msg, Msg.ai (replyOf t.gen)]))
          u = none := by
        rw [alGet_alSet_ne _ _ _ _ (fun h => hu h.symm)]; exact hc
      obtain ⟨s', n, hs', hn⟩ := ih _ hkeys hc1
        (fun t' ht' => hf t' (List.mem_cons_of_mem t ht'))
      exact ⟨s', n, by simp [runCount, hstep, hs', hu], hn⟩

/-! ### Codec round trip -/

/-- The entry shapes that actually occur in a store built by the public
operations: a human message, an ai message, or the system dict. -/
def WFmsg : Msg → Prop
  | .human _ => True
  | .ai _ => True
  | .dict o => o = systemObj

instance (m : Msg) : Decidable (WFmsg m) :=
  match m with
  | .human _ => .isTrue trivial
  | .ai _ => .isTrue trivial
  | .dict o => inferInstanceAs (Decidable (o = systemObj))

/-- The persisted shape of one well-formed entry, written the way §6 of the
spec should describe it after amendment: human and ai entries become
`type`-keyed objects, the system entry is passed through as its in-memory
`role`-keyed dict. -/
def encodeEntrySpec (m : Msg) : JObj :=
  match m with
  | .human c => [⟨"type", "human"⟩, ⟨"content", c⟩]
  | .ai c => [⟨"type", "ai"⟩, ⟨"content", c⟩]
  | .dict o => o

theorem serializeMsg_eq_encode (m : Msg) (hm : WFmsg m) :
    serializeMsg m = [encodeEntrySpec m] := by
  cases m with
  | human c => rfl
  | ai c => rfl
  | dict o =>
    have ho : o = systemObj := hm
    subst ho
    simp [serializeMsg, encodeEntrySpec, systemObj, jGet]

theorem loadMsg_encode (m : Msg) (hm : WFmsg m) :
    loadMsg (encodeEntrySpec m) = some m := by
  cases m with
  | human c => simp [loadMsg, encodeEntrySpec, jGet]
  | ai c => simp [loadMsg, encodeEntrySpec, jGet]
  | dict o =>
    have ho : o = systemObj := hm
    subst ho
    simp [loadMsg, encodeEntrySpec, systemObj, jGet]

theorem loadConv_roundtrip (l : List Msg) (hl : ∀ m ∈ l, WFmsg m) :
    loadConv (l.flatMap serializeMsg) = some l := by
  induction l with
  | nil => rfl
  | cons m t ih =>
    have hm : WFmsg m := hl m (List.mem_cons_self m t)
    have ht := ih (fun m' hm' => hl m' (List.mem_cons_of_mem m hm'))
    simp [serializeMsg_eq_encode m hm, loadConv,
      loadMsg_encode m hm, ht]

theorem loadAllConvs_roundtrip (l : List (String × List Msg))
    (hl : ∀ e ∈ l, ∀ m ∈ e.2, WFmsg m) :
    loadAllConvs (l.map (fun e => (e.1, e.2.flatMap serializeMsg))) =
      some l := by
  induction l with
  | nil => rfl
  | cons e t ih =>
    have he := loadConv_roundtrip e.2 (hl e (List.mem_cons_self e t))
    have ht := ih (fun e' he' => hl e' (List.mem_cons_of_mem e he'))
    simp [loadAllConvs, he, ht]

theorem flatMap_serializeMsg (l : List Msg) (hl : ∀ m ∈ l, WFmsg m) :
    l.flatMap serializeMsg = l.map encodeEntrySpec := by
  induction l with
  | nil => rfl
  | cons m t ih =>
    simp [serializeMsg_eq_encode m (hl m (List.mem_cons_self m t)),
      ih (fun m' hm' => hl m' (List.mem_cons_of_mem m hm'))]

/-- The fixed deadline passed to `asyncio.wait_for` around the LLM call
(`timeout=12.0` at `src/agent.py` line 188), in seconds. -/
def deadlineSeconds : Nat := 12

/-! ### Claims -/

/-- C1: for any user identifier and any nonempty sequence of sequential
`get_agent_response` calls for that user starting from a state in which the
user is unseen, the stored conversation's message list equals
`[system, user_1, assistant_1, user_2, assistant_2, ...]` in that exact
order, where each assistant entry is the generated reply or a fallback
(`turnMsgs` pairs each inbound text with `replyOf` of its generator
outcome); in particular the first entry is the system message and no two
consecutive user entries occur. -/
theorem conversation_order_preserved (s : Store) (u : String)
    (ts : List TurnInput) (hu : alGet s.conversations u = none)
    (hall : ∀ t ∈ ts, t.user = u) (hne : ts ≠ []) :
    ∃ s', runTurns ts s = some s' ∧
      alGet s'.conversations u = some (systemMsg :: turnMsgs ts) ∧
      noTwoConsecutiveHumans (systemMsg :: turnMsgs ts) = true := by
  cases ts with
  | nil => exact absurd rfl hne
  | cons t rest =>
    have htu : t.user = u := hall t (List.mem_cons_self t rest)
    subst htu
    have hpt : ensureProfile s t.user t.now = some (newProfile t.now) := by
      simp [ensureProfile, hu]
    have hstep :=
      get_agent_response_eq t.msg t.user t.now t.fetch t.gen s _ hpt
    have hc1 : alGet (alSet s.conversations t.user
        (ensureHistory s t.user ++ [Msg.human t.msg, Msg.ai (replyOf t.gen)]))
        t.user
        = some ([systemMsg] ++ [Msg.human t.msg, Msg.ai (replyOf t.gen)]) := by
      simp [alGet_alSet_self, ensureHistory, hu]
    have hp1 : alGet (alSet s.user_profiles t.user
        (postProfile (newProfile t.now) t.fetch)) t.user
        = some (postProfile (newProfile t.now) t.fetch) := by
      simp [alGet_alSet_self]
    obtain ⟨s', p', hrun, hcs, _⟩ := runTurns_append rest t.user
      { conversations := alSet s.conversations t.user
          (ensureHistory s t.user ++ [Msg.human t.msg, Msg.ai (replyOf t.gen)])
        user_profiles := alSet s.user_profiles t.user
          (postProfile (newProfile t.now) t.fetch) }
      ([systemMsg] ++ [Msg.human t.msg, Msg.ai (replyOf t.gen)])
      (postProfile (newProfile t.now) t.fetch)
      (fun t' ht' => hall t' (List.mem_cons_of_mem t ht')) hc1 hp1
    refine ⟨s', by simp [runTurns, hstep, hrun], ?_,
      noTwoConsecutiveHumans_turnMsgs _ systemMsg rfl⟩
    simpa [turnMsgs, List.append_assoc] using hcs

/-- Turn list for the C1 witness: two turns of one fresh user, one
generated reply and one deadline fallback. -/
def w1ts : List TurnInput :=
  [{ user := "U1", msg := "您好", now := "2024-01-01 00:00:00",
     fetch := some { display_name := "林小姐", username := "",
                     picture_url := "" },
     gen := GenOutcome.success "歡迎您" },
   { user := "U1", msg := "我來自高雄", now := "2024-01-01 00:01:00",
     fetch := none, gen := GenOutcome.timeout }]

theorem conversation_order_preserved_witness :
    ∃ s', runTurns w1ts emptyStore = some s' ∧
      alGet s'.conversations "U1" = some (systemMsg :: turnMsgs w1ts) ∧
      noTwoConsecutiveHumans (systemMsg :: turnMsgs w1ts) = true :=
  conversation_order_preserved emptyStore "U1" w1ts rfl
    (by intro t ht; fin_cases ht <;> rfl) (by simp [w1ts])

/-- C2: for every store whose conversation entries are human messages, ai
messages, or the system dict (the shapes the public operations create),
`save_memory` followed by the startup load reproduces the store exactly:
same user identifiers, same message order and content (strings, including
multi-byte non-Latin script, are carried verbatim), and the same profile
fields. -/
theorem save_load_roundtrip (s : Store)
    (hwf : ∀ e ∈ s.conversations, ∀ m ∈ e.2, WFmsg m) :
    startupLoad (some (Except.ok (save_memory s))) = s := by
  simp [startupLoad, save_memory, loadArtifact,
    loadAllConvs_roundtrip s.conversations hwf]

/-- Store for the C2 witness: one user with the system dict and a
multi-byte (Traditional Chinese) exchange, plus a populated profile. -/
def w2store : Store :=
  { conversations :=
      [("U1", [systemMsg, Msg.human "您好，我來自高雄",
               Msg.ai "謝謝您的分享"])]
    user_profiles :=
      [("U1", { first_interaction := "2024-01-01 00:00:00"
                total_messages := 1
                language_preference := "繁體中文"
                display_name := "林小姐"
                username := ""
                picture_url := "https://example.com/p.jpg" })] }

theorem save_load_roundtrip_witness :
    startupLoad (some (Except.ok (save_memory w2store))) = w2store :=
  save_load_roundtrip w2store (by
    intro e he m hm
    simp only [w2store, List.mem_singleton] at he
    subst he
    simp only [List.mem_cons, List.mem_singleton, List.not_mem_nil,
      or_false] at hm
    rcases hm with rfl | rfl | rfl
    · exact rfl
    · trivial
    · trivial)

/-- C3: the get-or-create step at the entry of `get_agent_response` is
idempotent per process lifetime: for a previously unseen user it produces a
conversation whose sole entry is the system message (so the system message
appears exactly once), and a second invocation returns the store unchanged —
it reuses the existing conversation and profile rather than creating new
ones, guarded by the `user_id not in conversations` presence check. -/
theorem idempotent_initialization (s : Store) (u now1 now2 : String)
    (hu : alGet s.conversations u = none) :
    getOrCreate u now2 (getOrCreate u now1 s) = getOrCreate u now1 s ∧
    alGet (getOrCreate u now1 s).conversations u = some [systemMsg] ∧
    alGet (getOrCreate u now1 s).user_profiles u = some (newProfile now1) := by
  refine ⟨?_, ?_, ?_⟩ <;> simp [getOrCreate, hu, alGet_alSet_self]

theorem idempotent_initialization_witness :
    getOrCreate "U1" "t2" (getOrCreate "U1" "t1" emptyStore) =
      getOrCreate "U1" "t1" emptyStore ∧
    alGet (getOrCreate "U1" "t1" emptyStore).conversations "U1" =
      some [systemMsg] ∧
    alGet (getOrCreate "U1" "t1" emptyStore).user_profiles "U1" =
      some (newProfile "t1") :=
  idempotent_initialization emptyStore "U1" "t1" "t2" rfl

/-- C4: the startup load never raises: a missing durable file produces the
empty store, a file that fails JSON parsing produces the empty store, and a
parsed document whose schema breaks the message-reconstruction loop likewise
produces the empty store instead of propagating the exception. -/
theorem load_soft_failure :
    startupLoad none = emptyStore ∧
    (∀ e : String, startupLoad (some (Except.error e)) = emptyStore) ∧
    (∀ a : Artifact, loadAllConvs a.conversations = none →
      startupLoad (some (Except.ok a)) = emptyStore) := by
  refine ⟨rfl, fun e => rfl, fun a ha => ?_⟩
  simp [startupLoad, loadArtifact, ha]

theorem load_soft_failure_witness :
    startupLoad (some (Except.ok
      { conversations := [("U1", [[⟨"type", "human"⟩]])], profiles := [] }))
      = emptyStore :=
  load_soft_failure.2.2 _ rfl

/-- C5: when the reply generator hits the fixed deadline (the 12-second
`asyncio.wait_for` bound), `get_agent_response` returns the fixed timeout
fallback text, both the user turn and the fallback assistant turn are
appended to the conversation, and `save_memory` is still triggered. -/
theorem deadline_fallback (m u now : String) (fo : FetchOutcome) (s : Store)
    (h : (alGet s.conversations u).isSome = true →
      (alGet s.user_profiles u).isSome = true) :
    deadlineSeconds = 12 ∧
    ∃ r, get_agent_response m u now fo GenOutcome.timeout s = some r ∧
      r.reply = timeoutReply ∧
      alGet r.store.conversations u =
        some (ensureHistory s u ++ [Msg.human m, Msg.ai timeoutReply]) ∧
      r.saved = true := by
  obtain ⟨p, hp⟩ := ensureProfile_isSome s u now h
  exact ⟨rfl, _, get_agent_response_eq m u now fo .timeout s p hp, rfl,
    by simp [alGet_alSet_self, replyOf], rfl⟩

theorem deadline_fallback_witness :
    deadlineSeconds = 12 ∧
    ∃ r, get_agent_response "您好" "U1" "t1" none GenOutcome.timeout
        emptyStore = some r ∧
      r.reply = timeoutReply ∧
      alGet r.store.conversations "U1" =
        some (ensureHistory emptyStore "U1" ++
          [Msg.human "您好", Msg.ai timeoutReply]) ∧
      r.saved = true :=
  deadline_fallback "您好" "U1" "t1" none emptyStore
    (by intro hh; simp [emptyStore, alGet] at hh)

/-- C6: when the reply generator fails with any error other than deadline
expiry, `get_agent_response` returns the fixed generic fallback text, which
is distinct from the timeout fallback, with the same guarantee that the user
turn and the fallback assistant turn are appended and `save_memory` is
triggered. -/
theorem generic_failure_fallback (m u now : String) (fo : FetchOutcome)
    (s : Store)
    (h : (alGet s.conversations u).isSome = true →
      (alGet s.user_profiles u).isSome = true) :
    genericFallback ≠ timeoutReply ∧
    ∃ r, get_agent_response m u now fo GenOutcome.error s = some r ∧
      r.reply = genericFallback ∧
      alGet r.store.conversations u =
        some (ensureHistory s u ++ [Msg.human m, Msg.ai genericFallback]) ∧
      r.saved = true := by
  obtain ⟨p, hp⟩ := ensureProfile_isSome s u now h
  exact ⟨by decide, _, get_agent_response_eq m u now fo .error s p hp, rfl,
    by simp [alGet_alSet_self, replyOf], rfl⟩

theorem generic_failure_fallback_witness :
    genericFallback ≠ timeoutReply ∧
    ∃ r, get_agent_response "您好" "U1" "t1" none GenOutcome.error
        emptyStore = some r ∧
      r.reply = genericFallback ∧
      alGet r.store.conversations "U1" =
        some (ensureHistory emptyStore "U1" ++
          [Msg.human "您好", Msg.ai genericFallback]) ∧
      r.saved = true :=
  generic_failure_fallback "您好" "U1" "t1" none emptyStore
    (by intro hh; simp [emptyStore, alGet] at hh)

/-- Turn list falsifying C7 as stated: the fetcher succeeds on the first
turn but the display name it reports is literally the `"Fetching..."`
sentinel; the code stores it, re-arming the guard, so the second turn
invokes the fetcher again. -/
def w7ts : List TurnInput :=
  [{ user := "U1", msg := "hi", now := "t1",
     fetch := some { display_name := "Fetching...", username := "",
                     picture_url := "" },
     gen := GenOutcome.error },
   { user := "U1", msg := "hi again", now := "t2",
     fetch := some { display_name := "Fetching...", username := "",
                     picture_url := "" },
     gen := GenOutcome.error }]

/-- C7 counterexample: two sequential turns of one fresh user whose first
profile fetch succeeds and returns display name `"Fetching..."` — the
fetcher is invoked twice, refuting "invoked at most once per user for the
lifetime of the process" and "once resolved the fetcher is never invoked
again". -/
theorem profile_fetch_twice_counterexample :
    Option.map Prod.snd (runCount "U1" w7ts emptyStore) = some 2 := rfl

/-- C7 (amended): the profile fetcher is invoked only while `display_name`
equals the `"Fetching..."` sentinel; a successful fetch stores the returned
display name, username and avatar URL, a failed fetch stores the
`"Unknown"` sentinel, and — provided the platform never reports the
literal sentinel as a display name — the fetcher is invoked at most once
per user across any sequence of turns. -/
theorem profile_fetch_once_amended :
    (∀ m u now fr go s l p, alGet s.conversations u = some l →
      alGet s.user_profiles u = some p → p.display_name = "Fetching..." →
      ∃ r, get_agent_response m u now (some fr) go s = some r ∧
        r.fetchInvoked = true ∧
        alGet r.store.user_profiles u = some
          { p with total_messages := p.total_messages + 1
                   display_name := fr.display_name
                   username := fr.username
                   picture_url := fr.picture_url }) ∧
    (∀ m u now go s l p, alGet s.conversations u = some l →
      alGet s.user_profiles u = some p → p.display_name = "Fetching..." →
      ∃ r, get_agent_response m u now none go s = some r ∧
        r.fetchInvoked = true ∧
        alGet r.store.user_profiles u = some
          { p with total_messages := p.total_messages + 1
                   display_name := "Unknown"
                   username := ""
                   picture_url := "" }) ∧
    (∀ m u now fo go s l p, alGet s.conversations u = some l →
      alGet s.user_profiles u = some p → p.display_name ≠ "Fetching..." →
      ∃ r, get_agent_response m u now fo go s = some r ∧
        r.fetchInvoked = false ∧
        alGet r.store.user_profiles u = some
          { p with total_messages := p.total_messages + 1 }) ∧
    (∀ u : String, ∀ ts : List TurnInput, ∀ s : Store, sameKeys s →
      alGet s.conversations u = none →
      (∀ t ∈ ts, ∀ fr, t.fetch = some fr →
        fr.display_name ≠ "Fetching...") →
      ∃ s' n, runCount u ts s = some (s', n) ∧ n ≤ 1) := by
  refine ⟨?_, ?_, ?_, fun u ts s hs hc hf => runCount_unseen u ts s hs hc hf⟩
  · intro m u now fr go s l p hc hp hd
    have hep : ensureProfile s u now = some p := by
      simp [ensureProfile, hc, hp]
    refine ⟨_, get_agent_response_eq m u now (some fr) go s p hep, ?_, ?_⟩
    · simp [resolveProfile, hd]
    · simp [alGet_alSet_self, postProfile, resolveProfile, hd]
  · intro m u now go s l p hc hp hd
    have hep : ensureProfile s u now = some p := by
      simp [ensureProfile, hc, hp]
    refine ⟨_, get_agent_response_eq m u now none go s p hep, ?_, ?_⟩
    · simp [resolveProfile, hd]
    · simp [alGet_alSet_self, postProfile, resolveProfile, hd]
  · intro m u now fo go s l p hc hp hd
    have hep : ensureProfile s u now = some p := by
      simp [ensureProfile, hc, hp]
    have hres := resolveProfile_resolved
      { p with total_messages := p.total_messages + 1 } fo hd
    refine ⟨_, get_agent_response_eq m u now fo go s p hep, ?_, ?_⟩
    · simp [hres]
    · simp [alGet_alSet_self, postProfile, hres]

/-- Seen store whose profile is still unresolved, for the C7 witness. -/
def w7store : Store :=
  { conversations := [("U1", [systemMsg])]
    user_profiles := [("U1", newProfile "t0")] }

/-- Seen store whose profile is already resolved, for the C7 witness. -/
def w7storeR : Store :=
  { conversations := [("U1", [systemMsg])]
    user_profiles := [("U1", { newProfile "t0" with display_name := "林小姐" })] }

/-- Turn list with well-behaved fetch results, for the C7 witness. -/
def w7goodts : List TurnInput :=
  [{ user := "U1", msg := "您好", now := "t1",
     fetch := some { display_name := "林小姐", username := "",
                     picture_url := "" },
     gen := GenOutcome.success "歡迎" },
   { user := "U1", msg := "繼續", now := "t2",
     fetch := some { display_name := "林小姐", username := "",
                     picture_url := "" },
     gen := GenOutcome.success "請說" }]

theorem profile_fetch_once_amended_witness :
    (∃ r, get_agent_response "hi" "U1" "t1"
        (some { display_name := "林小姐", username := "lin",
                picture_url := "u" })
        GenOutcome.error w7store = some r ∧
      r.fetchInvoked = true ∧
      alGet r.store.user_profiles "U1" = some
        { newProfile "t0" with
            total_messages := (newProfile "t0").total_messages + 1
            display_name := "林小姐"
            username := "lin"
            picture_url := "u" }) ∧
    (∃ r, get_agent_response "hi" "U1" "t1" none GenOutcome.error w7store
        = some r ∧
      r.fetchInvoked = true ∧
      alGet r.store.user_profiles "U1" = some
        { newProfile "t0" with
            total_messages := (newProfile "t0").total_messages + 1
            display_name := "Unknown"
            username := ""
            picture_url := "" }) ∧
    (∃ r, get_agent_response "hi" "U1" "t1" none GenOutcome.error w7storeR
        = some r ∧
      r.fetchInvoked = false ∧
      alGet r.store.user_profiles "U1" = some
        { { newProfile "t0" with display_name := "林小姐" } with
            total_messages :=
              ({ newProfile "t0" with
                  display_name := "林小姐" } : Profile).total_messages + 1 }) ∧
    (∃ s' n, runCount "U1" w7goodts emptyStore = some (s', n) ∧ n ≤ 1) :=
  ⟨profile_fetch_once_amended.1 "hi" "U1" "t1" _ GenOutcome.error w7store
      [systemMsg] (newProfile "t0") rfl rfl rfl,
   profile_fetch_once_amended.2.1 "hi" "U1" "t1" GenOutcome.error w7store
      [systemMsg] (newProfile "t0") rfl rfl rfl,
   profile_fetch_once_amended.2.2.1 "hi" "U1" "t1" none GenOutcome.error
      w7storeR [systemMsg] _ rfl rfl (by decide),
   profile_fetch_once_amended.2.2.2 "U1" w7goodts emptyStore
      (fun _ => rfl) rfl (by
        intro t ht fr hfr
        fin_cases ht <;>
          (injection hfr with h; subst h; decide))⟩

/-- C8 counterexample: for a store holding just the system entry, the
persisted conversation list is the raw system dict itself: it has no
`type` key at all — its role is recorded under the key `role` — refuting
"the system message entry carries the key `type` with value `system`". -/
theorem persisted_system_entry_counterexample :
    (save_memory { conversations := [("U1", [systemMsg])]
                   user_profiles := [] }).conversations
      = [("U1", [systemObj])] ∧
    jGet systemObj "type" = none ∧
    jGet systemObj "role" = some "system" :=
  ⟨rfl, rfl, rfl⟩

/-- C8 (amended): the persisted artifact is a single document with two
top-level maps; human and ai entries are encoded as
`{type: "human"|"ai", content: text}` objects, while the system entry is
passed through as the in-memory dict `{role: "system", content: text}`
(key `role`, not `type`), and profiles are passed through unchanged. -/
theorem persisted_layout_amended (s : Store)
    (hwf : ∀ e ∈ s.conversations, ∀ m ∈ e.2, WFmsg m) :
    (save_memory s).conversations =
      s.conversations.map (fun e => (e.1, e.2.map encodeEntrySpec)) ∧
    (save_memory s).profiles = s.user_profiles := by
  constructor
  · show s.conversations.map (fun e => (e.1, e.2.flatMap serializeMsg)) = _
    exact List.map_congr_left (fun e he =>
      congrArg (fun l => (e.1, l)) (flatMap_serializeMsg e.2 (hwf e he)))
  · rfl

/-- Store for the C8 witness. -/
def w8store : Store :=
  { conversations := [("U1", [systemMsg, Msg.human "哈囉", Msg.ai "你好"])]
    user_profiles := [("U1", newProfile "t0")] }

theorem persisted_layout_amended_witness :
    (save_memory w8store).conversations =
      w8store.conversations.map (fun e => (e.1, e.2.map encodeEntrySpec)) ∧
    (save_memory w8store).profiles = w8store.user_profiles :=
  persisted_layout_amended w8store (by
    intro e he m hm
    simp only [w8store, List.mem_singleton] at he
    subst he
    simp only [List.mem_cons, List.mem_singleton, List.not_mem_nil,
      or_false] at hm
    rcases hm with rfl | rfl | rfl
    · exact rfl
    · trivial
    · trivial)

/-- C9: for every inbound `(userId, text)` — whatever the generator and
fetcher outcomes — `get_agent_response` completes without raising (given
the key-set invariant under which every reachable store falls) and its
result is either the genuine generated reply or one of exactly two fixed
fallback strings, which are distinct; no turn is dropped and no internal
error text is surfaced. -/
theorem always_replies (m u now : String) (fo : FetchOutcome)
    (go : GenOutcome) (s : Store)
    (h : (alGet s.conversations u).isSome = true →
      (alGet s.user_profiles u).isSome = true) :
    ∃ r, get_agent_response m u now fo go s = some r ∧
      ((∃ t, go = GenOutcome.success t ∧ r.reply = t) ∨
        r.reply = timeoutReply ∨ r.reply = genericFallback) ∧
      timeoutReply ≠ genericFallback := by
  obtain ⟨p, hp⟩ := ensureProfile_isSome s u now h
  refine ⟨_, get_agent_response_eq m u now fo go s p hp, ?_, by decide⟩
  cases go with
  | success t => exact Or.inl ⟨t, rfl, rfl⟩
  | timeout => exact Or.inr (Or.inl rfl)
  | error => exact Or.inr (Or.inr rfl)

theorem always_replies_witness :
    ∃ r, get_agent_response "您好" "U1" "t1" none (GenOutcome.success "歡迎")
        emptyStore = some r ∧
      ((∃ t, GenOutcome.success "歡迎" = GenOutcome.success t ∧
          r.reply = t) ∨
        r.reply = timeoutReply ∨ r.reply = genericFallback) ∧
      timeoutReply ≠ genericFallback :=
  always_replies "您好" "U1" "t1" none (GenOutcome.success "歡迎") emptyStore
    (by intro hh; simp [emptyStore, alGet] at hh)

/-- C10: the key sets of the `conversations` and `user_profiles` maps are
always equal along any sequence of `get_agent_response` calls — the empty
store satisfies the invariant, and from any store satisfying it every run
succeeds (the unguarded profile accesses never raise) and re-establishes
it; a loaded artifact is the one source of states not checked against it. -/
theorem key_sets_equal :
    sameKeys emptyStore ∧
    ∀ ts : List TurnInput, ∀ s : Store, sameKeys s →
      ∃ s', runTurns ts s = some s' ∧ sameKeys s' :=
  ⟨sameKeys_emptyStore, fun ts s hs => sameKeys_runTurns ts s hs⟩

/-- Turn list for the C10 witness: two users interleaved. -/
def w10ts : List TurnInput :=
  [{ user := "U1", msg := "您好", now := "t1", fetch := none,
     gen := GenOutcome.success "歡迎" },
   { user := "U2", msg := "哈囉", now := "t2", fetch := none,
     gen := GenOutcome.timeout },
   { user := "U1", msg := "繼續", now := "t3", fetch := none,
     gen := GenOutcome.error }]

theorem key_sets_equal_witness :
    ∃ s', runTurns w10ts emptyStore = some s' ∧ sameKeys s' :=
  key_sets_equal.2 w10ts emptyStore (fun _ => rfl)

end LineBot
